import Mathlib

/-!
Verification of the medi-trace record-store service.

Shallow embedding of `src/src/index.ts`: a key-value store of medicine
records keyed by a generated string id, with query and update operations.
Principals (azle `Principal`) are modelled as opaque strings compared by
equality, exactly as the source compares `p.toString()`.  The external
environment (`ic.caller()`, `ic.time()`, `new Date()`, `uuidv4()`) is an
explicit `Env` record threaded through every operation.  Every operation
takes the store and returns the (possibly updated) store next to its
`Result`; `$query` operations return the store unchanged by construction,
mirroring the platform's read-only query semantics.

JavaScript specifics modelled explicitly:
- `!s` on a string is the empty-string test `s = ""`;
- `number` arguments of `loadMoreMedicines` are modelled as `ℚ` (every
  finite float is rational); `Number.isInteger x` is `x.den = 1`, and the
  non-finite inputs also fail that test in JS, so they land in the same
  error branch;
- `Array.prototype.slice(a, b)` on in-range integer bounds is
  `jsSlice`; `String.prototype.includes` is `jsIncludes`;
- `new Date(s)` / `new Date()` numeric comparison in `addMedicine` is via
  `Env.dateOf` / `Env.nowMs`; the raw ISO-string comparisons of
  `sendDueDateReminder` and `getOverdueMedicines` use `Env.nowISO`;
- azle's `StableBTreeMap.insert` returns an `Opt` of the previous value
  and never the JS value `undefined`, so the `insertResult === undefined`
  branch of `addMedicine` is dead code and the insert is modelled total;
- `comment === null` is unsatisfiable for a Candid `string`, so the guard
  of `addMedicineComment` reduces to the `!id` test.
-/

structure Medicine where
  creator : String
  id : String
  title : String
  description : String
  created_date : Nat
  updated_at : Option Nat
  expiry_date : String
  assigned_to : String
  tags : List String
  status : String
  priority : String
  comments : List String
deriving DecidableEq, Repr

structure MedicinePayload where
  title : String
  description : String
  assigned_to : String
  expiry_date : String
deriving DecidableEq, Repr

/-- Values obtained from the host environment during one call. -/
structure Env where
  caller : String
  time : Nat
  nowISO : String
  nowMs : Int
  dateOf : String → Int
  newId : String

/-- The `StableBTreeMap<string, Medicine>`: entries sorted by key. -/
abbrev Store := List (String × Medicine)

inductive Result (α : Type) where
  | Ok : α → Result α
  | Err : String → Result α
deriving DecidableEq, Repr

def Result.isErr {α : Type} : Result α → Bool
  | .Ok _ => false
  | .Err _ => true

/-- `MedicineStorage.get(k)`. -/
def storeGet (s : Store) (k : String) : Option Medicine :=
  match s with
  | [] => none
  | e :: rest => if k = e.1 then some e.2 else storeGet rest k

/-- `MedicineStorage.insert(k, v)`: replace the binding of `k`, or insert
it at its sorted position. -/
def storeInsert (k : String) (v : Medicine) : Store → Store
  | [] => [(k, v)]
  | e :: rest =>
    if k = e.1 then (k, v) :: rest
    else if k < e.1 then (k, v) :: e :: rest
    else e :: storeInsert k v rest

/-- `MedicineStorage.remove(k)`. -/
def storeRemove (s : Store) (k : String) : Store :=
  s.filter (fun e => e.1 != k)

/-- `MedicineStorage.values()`: the records in key order. -/
def storeValues (s : Store) : List Medicine :=
  s.map Prod.snd

/-- `xs.slice(a, b)` of JavaScript for `0 ≤ a ≤ b ≤ xs.length`. -/
def jsSlice {α : Type} (xs : List α) (a b : Nat) : List α :=
  (xs.drop a).take (b - a)

/-- `hay.includes(needle)` of JavaScript. -/
def jsIncludes (hay needle : String) : Bool :=
  decide (needle.toList <:+: hay.toList)

/-- Number of Medicines to load initially. -/
def initialLoadSize : Nat := 4

/-- Load the initial batch of Medicines. -/
def getInitialMedicines (_env : Env) (s : Store) :
    Result (List Medicine) × Store :=
  let initialMedicines := (storeValues s).take initialLoadSize
  if initialMedicines.length = 0 then (.Err "No initial medicines found", s)
  else (.Ok initialMedicines, s)

/-- Load more Medicines as the user scrolls down. -/
def loadMoreMedicines (_env : Env) (s : Store) (offset limit : ℚ) :
    Result (List Medicine) × Store :=
  if offset < 0 ∨ limit < 0 ∨ offset.den ≠ 1 ∨ limit.den ≠ 1 then
    (.Err "Invalid input parameters", s)
  else
    let allMedicines := storeValues s
    if allMedicines.length = 0 then (.Err "No more medicines to load", s)
    else if (allMedicines.length : ℚ) ≤ offset then (.Err "Invalid offset", s)
    else if (allMedicines.length : ℚ) < offset + limit then
      (.Err "Invalid offset and limit", s)
    else
      (.Ok (jsSlice allMedicines offset.num.toNat (offset + limit).num.toNat), s)

/-- Loading a specific medicine. -/
def getMedicine (env : Env) (s : Store) (id : String) :
    Result Medicine × Store :=
  if id = "" then (.Err "Invalid id parameter", s)
  else
    match storeGet s id with
    | some medicine =>
      if medicine.creator ≠ env.caller then
        (.Err "You are not authorized to access Medicine", s)
      else (.Ok medicine, s)
    | none => (.Err ("Medicine with id:" ++ id ++ " not found"), s)

/-- Get Medicine available by tags. -/
def getMedicineByTags (_env : Env) (s : Store) (tag : String) :
    Result (List Medicine) × Store :=
  (.Ok ((storeValues s).filter (fun m => m.tags.contains tag)), s)

/-- Search Medicine by case-insensitive substring of title or description. -/
def searchMedicines (_env : Env) (s : Store) (searchInput : String) :
    Result (List Medicine) × Store :=
  let lowerCaseSearchInput := searchInput.toLower
  (.Ok ((storeValues s).filter (fun m =>
    jsIncludes m.title.toLower lowerCaseSearchInput ||
    jsIncludes m.description.toLower lowerCaseSearchInput)), s)

/-- Mark a Medicine as completed (requires a non-empty assignee). -/
def completedMedicine (_env : Env) (s : Store) (id : String) :
    Result Medicine × Store :=
  match storeGet s id with
  | some medicine =>
    if medicine.assigned_to = "" then
      (.Err "No one was assigned the Medicine", s)
    else
      let completeMedicine := { medicine with status := "Completed" }
      (.Ok completeMedicine, storeInsert medicine.id completeMedicine s)
  | none => (.Err ("Medicine with id:" ++ id ++ " not found"), s)

/-- Create a Medicine record. -/
def addMedicine (env : Env) (s : Store) (payload : MedicinePayload) :
    Result Medicine × Store :=
  if payload.title = "" ∨ payload.description = "" ∨
      payload.assigned_to = "" ∨ payload.expiry_date = "" then
    (.Err "Missing or invalid input data", s)
  else if env.dateOf payload.expiry_date < env.nowMs then
    (.Err "Expiry date cannot be in the past", s)
  else
    let newMedicine : Medicine := {
      creator := env.caller
      id := env.newId
      title := payload.title
      description := payload.description
      created_date := env.time
      updated_at := none
      expiry_date := payload.expiry_date
      assigned_to := payload.assigned_to
      tags := []
      status := "In Progress"
      priority := ""
      comments := [] }
    (.Ok newMedicine, storeInsert newMedicine.id newMedicine s)

/-- Add tags to a Medicine. -/
def addTags (env : Env) (s : Store) (id : String) (tags : List String) :
    Result Medicine × Store :=
  if tags = [] then (.Err "Invalid tags", s)
  else
    match storeGet s id with
    | some medicine =>
      if medicine.creator ≠ env.caller then
        (.Err "You are not authorized to access Medicine", s)
      else
        let updatedMedicine :=
          { medicine with tags := medicine.tags ++ tags,
                          updated_at := some env.time }
        (.Ok updatedMedicine, storeInsert medicine.id updatedMedicine s)
    | none => (.Err ("Medicine with id:" ++ id ++ " not found"), s)

/-- Update title, description, assignee and expiry of a Medicine. -/
def updateMedicine (env : Env) (s : Store) (id : String)
    (payload : MedicinePayload) : Result Medicine × Store :=
  match storeGet s id with
  | some medicine =>
    if medicine.creator ≠ env.caller then
      (.Err "You are not authorized to access Medicine", s)
    else
      let updatedMedicine :=
        { medicine with title := payload.title,
                        description := payload.description,
                        assigned_to := payload.assigned_to,
                        expiry_date := payload.expiry_date,
                        updated_at := some env.time }
      (.Ok updatedMedicine, storeInsert medicine.id updatedMedicine s)
  | none => (.Err ("Medicine with id:" ++ id ++ " not found"), s)

/-- Delete a Medicine. -/
def deleteMedicine (env : Env) (s : Store) (id : String) :
    Result Medicine × Store :=
  match storeGet s id with
  | some medicine =>
    if medicine.creator ≠ env.caller then
      (.Err "You are not authorized to access Medicine", s)
    else (.Ok medicine, storeRemove s id)
  | none =>
    (.Err ("Medicine with id:" ++ id ++ " not found, could not be deleted"), s)

/-- Assign a Medicine to a user. -/
def assignMedicine (env : Env) (s : Store) (id : String)
    (assignedTo : String) : Result Medicine × Store :=
  match storeGet s id with
  | some medicine =>
    if medicine.creator ≠ env.caller then
      (.Err "You are not authorized to assign a Medicine", s)
    else
      let updatedMedicine := { medicine with assigned_to := assignedTo }
      (.Ok updatedMedicine, storeInsert medicine.id updatedMedicine s)
  | none => (.Err ("Medicine with id:" ++ id ++ " not found"), s)

/-- Change a Medicine's status to an arbitrary string. -/
def changeMedicineStatus (env : Env) (s : Store) (id : String)
    (newStatus : String) : Result Medicine × Store :=
  match storeGet s id with
  | some medicine =>
    if medicine.creator ≠ env.caller then
      (.Err "You are not authorized to change the Medicine status", s)
    else
      let updatedMedicine := { medicine with status := newStatus }
      (.Ok updatedMedicine, storeInsert medicine.id updatedMedicine s)
  | none => (.Err ("Medicine with id:" ++ id ++ " not found"), s)

/-- Get Medicines by exact status match. -/
def getMedicinesByStatus (_env : Env) (s : Store) (status : String) :
    Result (List Medicine) × Store :=
  (.Ok ((storeValues s).filter (fun m => m.status == status)), s)

/-- Set a Medicine's priority label. -/
def setMedicinePriority (env : Env) (s : Store) (id : String)
    (priority : String) : Result Medicine × Store :=
  match storeGet s id with
  | some medicine =>
    if medicine.creator ≠ env.caller then
      (.Err "You are not authorized to set Medicine priority", s)
    else
      let updatedMedicine := { medicine with priority := priority }
      (.Ok updatedMedicine, storeInsert medicine.id updatedMedicine s)
  | none => (.Err ("Medicine with id:" ++ id ++ " not found"), s)

/-- Medicine due-date reminder. -/
def sendDueDateReminder (env : Env) (s : Store) (id : String) :
    Result String × Store :=
  match storeGet s id with
  | some medicine =>
    if medicine.expiry_date < env.nowISO ∧ medicine.status ≠ "Completed" then
      (.Ok "Medicine is overdue. Please complete it.", s)
    else (.Err "Medicine is not overdue or already completed.", s)
  | none => (.Err ("Medicine with id:" ++ id ++ " not found"), s)

/-- Get Medicines by creator. -/
def getMedicinesByCreator (_env : Env) (s : Store) (creator : String) :
    Result (List Medicine) × Store :=
  (.Ok ((storeValues s).filter (fun m => m.creator == creator)), s)

/-- Get overdue Medicines. -/
def getOverdueMedicines (env : Env) (s : Store) :
    Result (List Medicine) × Store :=
  (.Ok ((storeValues s).filter (fun m =>
    decide (m.expiry_date < env.nowISO ∧ m.status ≠ "Completed"))), s)

/-- Add a comment to a Medicine (no authorization check). -/
def addMedicineComment (_env : Env) (s : Store) (id : String)
    (comment : String) : Result Medicine × Store :=
  if id = "" then (.Err ("invalid id:" ++ id ++ " or comment"), s)
  else
    match storeGet s id with
    | some medicine =>
      let updatedMedicine :=
        { medicine with comments := medicine.comments ++ [comment] }
      (.Ok updatedMedicine, storeInsert medicine.id updatedMedicine s)
    | none => (.Err ("Medicine with id:" ++ id ++ " not found"), s)

/-- Store well-formedness: entries sorted strictly by key, and every
record stored under its own id (both hold for every store reachable from
the empty map through the operations above). -/
def WFStore (s : Store) : Prop :=
  s.Pairwise (fun a b => a.1 < b.1) ∧ ∀ e ∈ s, e.2.id = e.1

/-! Store lemmas. -/

theorem storeGet_storeInsert_self (k : String) (v : Medicine) (s : Store) :
    storeGet (storeInsert k v s) k = some v := by
  induction s with
  | nil => simp [storeInsert, storeGet]
  | cons e rest ih =>
    by_cases h1 : k = e.1
    · simp [storeInsert, h1, storeGet]
    · by_cases h2 : k < e.1
      · simp [storeInsert, h1, h2, storeGet]
      · simp [storeInsert, h1, h2, storeGet, ih]

theorem mem_storeInsert {k : String} {v : Medicine} {s : Store}
    {e : String × Medicine} (h : e ∈ storeInsert k v s) :
    e = (k, v) ∨ e ∈ s := by
  induction s with
  | nil =>
    simp [storeInsert] at h
    exact Or.inl h
  | cons a rest ih =>
    unfold storeInsert at h
    by_cases h1 : k = a.1
    · rw [if_pos h1] at h
      rcases List.mem_cons.mp h with h | h
      · exact Or.inl h
      · exact Or.inr (List.mem_cons_of_mem a h)
    · rw [if_neg h1] at h
      by_cases h2 : k < a.1
      · rw [if_pos h2] at h
        rcases List.mem_cons.mp h with h | h
        · exact Or.inl h
        · exact Or.inr h
      · rw [if_neg h2] at h
        rcases List.mem_cons.mp h with h | h
        · exact Or.inr (h ▸ List.mem_cons_self a rest)
        · rcases ih h with h' | h'
          · exact Or.inl h'
          · exact Or.inr (List.mem_cons_of_mem a h')

theorem pairwise_storeInsert {k : String} {v : Medicine} {s : Store}
    (hs : s.Pairwise (fun a b => a.1 < b.1)) :
    (storeInsert k v s).Pairwise (fun a b => a.1 < b.1) := by
  induction s with
  | nil => simp [storeInsert]
  | cons a rest ih =>
    rcases List.pairwise_cons.mp hs with ⟨ha, hrest⟩
    by_cases h1 : k = a.1
    · unfold storeInsert
      rw [if_pos h1]
      exact List.pairwise_cons.mpr ⟨fun b hb => h1 ▸ ha b hb, hrest⟩
    · by_cases h2 : k < a.1
      · unfold storeInsert
        rw [if_neg h1, if_pos h2]
        refine List.pairwise_cons.mpr ⟨?_, hs⟩
        intro b hb
        rcases List.mem_cons.mp hb with rfl | hb
        · exact h2
        · exact lt_trans h2 (ha b hb)
      · have h3 : a.1 < k :=
          lt_of_le_of_ne (not_lt.mp h2) (fun hEq => h1 hEq.symm)
        unfold storeInsert
        rw [if_neg h1, if_neg h2]
        refine List.pairwise_cons.mpr ⟨?_, ih hrest⟩
        intro b hb
        rcases mem_storeInsert hb with rfl | hb
        · exact h3
        · exact ha b hb

theorem WFStore_storeInsert {k : String} {v : Medicine} {s : Store}
    (hs : WFStore s) (hv : v.id = k) : WFStore (storeInsert k v s) := by
  refine ⟨pairwise_storeInsert hs.1, ?_⟩
  intro e he
  rcases mem_storeInsert he with rfl | he
  · exact hv
  · exact hs.2 e he

theorem storeGet_mem_storeValues {s : Store} {k : String} {m : Medicine}
    (h : storeGet s k = some m) : m ∈ storeValues s := by
  induction s with
  | nil => simp [storeGet] at h
  | cons a rest ih =>
    unfold storeGet at h
    by_cases h1 : k = a.1
    · rw [if_pos h1] at h
      injection h with h
      exact h ▸ List.mem_cons_self _ _
    · rw [if_neg h1] at h
      exact List.mem_cons_of_mem _ (ih h)

theorem WFStore_ids_nodup {s : Store} (hs : WFStore s) :
    ((storeValues s).map Medicine.id).Nodup := by
  have hmap : (storeValues s).map Medicine.id = s.map (fun e => e.1) := by
    rw [storeValues, List.map_map]
    exact List.map_congr_left (fun e he => hs.2 e he)
  rw [hmap]
  exact List.Pairwise.map _ (fun a b h => ne_of_lt h) hs.1

/-! Concrete fixtures for witnesses and counterexamples. -/

def medAlice : Medicine := {
  creator := "alice"
  id := "m1"
  title := "Aspirin"
  description := "pain relief"
  created_date := 10
  updated_at := none
  expiry_date := "2030-01-01"
  assigned_to := "bob"
  tags := ["urgent"]
  status := "In Progress"
  priority := ""
  comments := [] }

def medCarol : Medicine := {
  creator := "carol"
  id := "m2"
  title := "Ibuprofen"
  description := "fever"
  created_date := 11
  updated_at := none
  expiry_date := "2020-01-01"
  assigned_to := ""
  tags := []
  status := "In Progress"
  priority := ""
  comments := [] }

def envEve : Env := {
  caller := "eve"
  time := 50
  nowISO := "2026-10-12"
  nowMs := 100
  dateOf := fun d => if d = "past" then 0 else 200
  newId := "m9" }

def envAlice : Env := { envEve with caller := "alice" }

def storeOne : Store := [("m1", medAlice)]

def storeTwo : Store := [("m1", medAlice), ("m2", medCarol)]

def payGood : MedicinePayload := {
  title := "T"
  description := "D"
  assigned_to := "A"
  expiry_date := "2030-01-01" }

/-! Claim theorems. -/

/-- C1 counterexample: `completedMedicine` is a mutating operation other
than add-comment, yet the caller "eve", different from the record's
creator "alice", completes the record successfully and the stored record
changes: the claim's authorization guarantee fails for mark-completed. -/
theorem c1_counterexample :
    medAlice.creator ≠ envEve.caller ∧
    (completedMedicine envEve storeOne "m1").1.isErr = false ∧
    storeGet (completedMedicine envEve storeOne "m1").2 "m1" ≠
      storeGet storeOne "m1" := by decide

/-- C1 (amended): for every mutating operation except add-comment and
mark-completed (add tags, update, delete, assign, change status, set
priority), a caller whose identity differs from the stored record's
creator gets an error and the store is left entirely unchanged, so a
subsequent get returns the pre-mutation values. -/
theorem c1_nonCreator_mutation_rejected (env : Env) (s : Store) (id : String)
    (m : Medicine) (hget : storeGet s id = some m)
    (hne : m.creator ≠ env.caller) :
    (∀ tags, (addTags env s id tags).1.isErr = true ∧
      (addTags env s id tags).2 = s) ∧
    (∀ p, (updateMedicine env s id p).1.isErr = true ∧
      (updateMedicine env s id p).2 = s) ∧
    ((deleteMedicine env s id).1.isErr = true ∧
      (deleteMedicine env s id).2 = s) ∧
    (∀ a, (assignMedicine env s id a).1.isErr = true ∧
      (assignMedicine env s id a).2 = s) ∧
    (∀ st, (changeMedicineStatus env s id st).1.isErr = true ∧
      (changeMedicineStatus env s id st).2 = s) ∧
    (∀ pr, (setMedicinePriority env s id pr).1.isErr = true ∧
      (setMedicinePriority env s id pr).2 = s) := by
  refine ⟨?_, ?_, ?_, ?_, ?_, ?_⟩
  · intro tags
    by_cases ht : tags = []
    · simp [addTags, ht, Result.isErr]
    · simp [addTags, ht, hget, hne, Result.isErr]
  · intro p
    simp [updateMedicine, hget, hne, Result.isErr]
  · simp [deleteMedicine, hget, hne, Result.isErr]
  · intro a
    simp [assignMedicine, hget, hne, Result.isErr]
  · intro st
    simp [changeMedicineStatus, hget, hne, Result.isErr]
  · intro pr
    simp [setMedicinePriority, hget, hne, Result.isErr]

/-- C1 witness: a non-creator update on a concrete store errs and leaves
the store unchanged. -/
theorem c1_witness :
    (updateMedicine envEve storeOne "m1" payGood).1.isErr = true ∧
    (updateMedicine envEve storeOne "m1" payGood).2 = storeOne :=
  (c1_nonCreator_mutation_rejected envEve storeOne "m1" medAlice (by decide)
    (by decide)).2.1 payGood

/-- C4: `completedMedicine` on an absent id returns a not-found error; on
a stored record with empty `assigned_to` it errs and leaves the store
unchanged; on a stored record with a non-empty assignee it sets status to
"Completed", re-stores the record under the record's id, and returns the
completed record. -/
theorem c4_completedMedicine_spec (env : Env) (s : Store) (id : String) :
    (storeGet s id = none →
      completedMedicine env s id =
        (.Err ("Medicine with id:" ++ id ++ " not found"), s)) ∧
    (∀ m, storeGet s id = some m → m.assigned_to = "" →
      completedMedicine env s id = (.Err "No one was assigned the Medicine", s)) ∧
    (∀ m, storeGet s id = some m → m.assigned_to ≠ "" →
      completedMedicine env s id =
        (.Ok { m with status := "Completed" },
         storeInsert m.id { m with status := "Completed" } s) ∧
      storeGet (completedMedicine env s id).2 m.id =
        some { m with status := "Completed" }) := by
  refine ⟨?_, ?_, ?_⟩
  · intro h
    simp [completedMedicine, h]
  · intro m hm ha
    simp [completedMedicine, hm, ha]
  · intro m hm ha
    have hc : completedMedicine env s id =
        (.Ok { m with status := "Completed" },
         storeInsert m.id { m with status := "Completed" } s) := by
      simp [completedMedicine, hm, ha]
    refine ⟨hc, ?_⟩
    rw [hc]
    exact storeGet_storeInsert_self _ _ _

/-- C4 witness: completing the concrete assigned record "m1" succeeds and
re-stores it with status "Completed". -/
theorem c4_witness :
    completedMedicine envAlice storeOne "m1" =
      (.Ok { medAlice with status := "Completed" },
       storeInsert medAlice.id { medAlice with status := "Completed" } storeOne) ∧
    storeGet (completedMedicine envAlice storeOne "m1").2 medAlice.id =
      some { medAlice with status := "Completed" } :=
  (c4_completedMedicine_spec envAlice storeOne "m1").2.2 medAlice (by decide)
    (by decide)

/-- C9: `getMedicine` never changes the store, errs on an empty id, errs
on an id absent from the store, errs when the caller is not the record's
creator, and returns the stored record exactly when the id is non-empty,
present, and the caller equals the creator. -/
theorem c9_getMedicine_spec (env : Env) (s : Store) (id : String) :
    (getMedicine env s id).2 = s ∧
    (id = "" → (getMedicine env s id).1 = .Err "Invalid id parameter") ∧
    (id ≠ "" → storeGet s id = none → (getMedicine env s id).1.isErr = true) ∧
    (∀ m, id ≠ "" → storeGet s id = some m → m.creator ≠ env.caller →
      (getMedicine env s id).1.isErr = true) ∧
    (∀ m, id ≠ "" → storeGet s id = some m → m.creator = env.caller →
      (getMedicine env s id).1 = .Ok m) := by
  refine ⟨?_, ?_, ?_, ?_, ?_⟩
  · by_cases hid : id = ""
    · simp [getMedicine, hid]
    · cases hg : storeGet s id with
      | none => simp [getMedicine, hid, hg]
      | some m =>
        by_cases hc : m.creator = env.caller
        · simp [getMedicine, hid, hg, hc]
        · simp [getMedicine, hid, hg, hc]
  · intro hid
    simp [getMedicine, hid]
  · intro hid hg
    simp [getMedicine, hid, hg, Result.isErr]
  · intro m hid hg hc
    simp [getMedicine, hid, hg, hc, Result.isErr]
  · intro m hid hg hc
    simp [getMedicine, hid, hg, hc]

/-- C9 witness: the creator "alice" fetches her own record. -/
theorem c9_witness :
    (getMedicine envAlice storeOne "m1").1 = .Ok medAlice :=
  (c9_getMedicine_spec envAlice storeOne "m1").2.2.2.2 medAlice (by decide)
    (by decide) (by decide)

/-- C10: the bulk queries (by tag, text search, by status, overdue) apply
no authorization filter: their result is identical for any two caller
identities over the same store, and a record matching a tag is returned
to a caller who is not its creator even though `getMedicine` refuses that
caller. -/
theorem c10_bulk_queries_ignore_caller (env : Env) (c : String) (s : Store)
    (tag q st : String) :
    getMedicineByTags { env with caller := c } s tag =
      getMedicineByTags env s tag ∧
    searchMedicines { env with caller := c } s q = searchMedicines env s q ∧
    getMedicinesByStatus { env with caller := c } s st =
      getMedicinesByStatus env s st ∧
    getOverdueMedicines { env with caller := c } s = getOverdueMedicines env s ∧
    (∀ id m, storeGet s id = some m → m.creator ≠ env.caller →
      m.tags.contains tag = true →
      (∃ l, (getMedicineByTags env s tag).1 = .Ok l ∧ m ∈ l) ∧
      (id ≠ "" → (getMedicine env s id).1.isErr = true)) := by
  refine ⟨rfl, rfl, rfl, rfl, ?_⟩
  intro id m hget hne htag
  constructor
  · refine ⟨_, rfl, ?_⟩
    rw [List.mem_filter]
    exact ⟨storeGet_mem_storeValues hget, htag⟩
  · intro hid
    simp [getMedicine, hid, hget, hne, Result.isErr]

/-- C10 witness: "eve" sees alice's record via the tag query although
`getMedicine` refuses her. -/
theorem c10_witness :
    (∃ l, (getMedicineByTags envEve storeOne "urgent").1 = .Ok l ∧
      medAlice ∈ l) ∧
    (getMedicine envEve storeOne "m1").1.isErr = true := by
  have h := (c10_bulk_queries_ignore_caller envEve "zz" storeOne "urgent" "q"
    "st").2.2.2.2 "m1" medAlice (by decide) (by decide) (by decide)
  exact ⟨h.1, h.2 (by decide)⟩

/-- C2: for every operation and every store state, an error result leaves
the store entirely unchanged: no record is inserted, removed, or
modified. -/
theorem c2_error_leaves_store_unchanged (env : Env) (s : Store) :
    ((getInitialMedicines env s).1.isErr = true →
      (getInitialMedicines env s).2 = s) ∧
    (∀ offset limit : ℚ, (loadMoreMedicines env s offset limit).1.isErr = true →
      (loadMoreMedicines env s offset limit).2 = s) ∧
    (∀ id, (getMedicine env s id).1.isErr = true →
      (getMedicine env s id).2 = s) ∧
    (∀ tag, (getMedicineByTags env s tag).1.isErr = true →
      (getMedicineByTags env s tag).2 = s) ∧
    (∀ q, (searchMedicines env s q).1.isErr = true →
      (searchMedicines env s q).2 = s) ∧
    (∀ id, (completedMedicine env s id).1.isErr = true →
      (completedMedicine env s id).2 = s) ∧
    (∀ p, (addMedicine env s p).1.isErr = true → (addMedicine env s p).2 = s) ∧
    (∀ id tags, (addTags env s id tags).1.isErr = true →
      (addTags env s id tags).2 = s) ∧
    (∀ id p, (updateMedicine env s id p).1.isErr = true →
      (updateMedicine env s id p).2 = s) ∧
    (∀ id, (deleteMedicine env s id).1.isErr = true →
      (deleteMedicine env s id).2 = s) ∧
    (∀ id a, (assignMedicine env s id a).1.isErr = true →
      (assignMedicine env s id a).2 = s) ∧
    (∀ id st, (changeMedicineStatus env s id st).1.isErr = true →
      (changeMedicineStatus env s id st).2 = s) ∧
    (∀ st, (getMedicinesByStatus env s st).1.isErr = true →
      (getMedicinesByStatus env s st).2 = s) ∧
    (∀ id pr, (setMedicinePriority env s id pr).1.isErr = true →
      (setMedicinePriority env s id pr).2 = s) ∧
    (∀ id, (sendDueDateReminder env s id).1.isErr = true →
      (sendDueDateReminder env s id).2 = s) ∧
    (∀ c, (getMedicinesByCreator env s c).1.isErr = true →
      (getMedicinesByCreator env s c).2 = s) ∧
    ((getOverdueMedicines env s).1.isErr = true →
      (getOverdueMedicines env s).2 = s) ∧
    (∀ id c, (addMedicineComment env s id c).1.isErr = true →
      (addMedicineComment env s id c).2 = s) := by
  refine ⟨?_, ?_, ?_, ?_, ?_, ?_, ?_, ?_, ?_, ?_, ?_, ?_, ?_, ?_, ?_, ?_, ?_, ?_⟩
  · intro _
    simp only [getInitialMedicines]
    split <;> rfl
  · intro offset limit h
    by_cases h1 : offset < 0 ∨ limit < 0 ∨ offset.den ≠ 1 ∨ limit.den ≠ 1
    · simp [loadMoreMedicines, h1]
    · by_cases h2 : (storeValues s).length = 0
      · simp [loadMoreMedicines, h1, h2]
      · by_cases h3 : ((storeValues s).length : ℚ) ≤ offset
        · simp [loadMoreMedicines, h1, h2, h3]
        · by_cases h4 : ((storeValues s).length : ℚ) < offset + limit
          · simp [loadMoreMedicines, h1, h2, h3, h4]
          · simp [loadMoreMedicines, h1, h2, h3, h4, Result.isErr] at h
  · intro id _
    by_cases hid : id = ""
    · simp [getMedicine, hid]
    · cases hg : storeGet s id with
      | none => simp [getMedicine, hid, hg]
      | some m =>
        by_cases hc : m.creator = env.caller
        · simp [getMedicine, hid, hg, hc]
        · simp [getMedicine, hid, hg, hc]
  · intro tag _
    rfl
  · intro q _
    rfl
  · intro id h
    cases hg : storeGet s id with
    | none => simp [completedMedicine, hg]
    | some m =>
      by_cases ha : m.assigned_to = ""
      · simp [completedMedicine, hg, ha]
      · simp [completedMedicine, hg, ha, Result.isErr] at h
  · intro p h
    by_cases h1 : p.title = "" ∨ p.description = "" ∨ p.assigned_to = "" ∨
        p.expiry_date = ""
    · simp [addMedicine, h1]
    · by_cases h2 : env.dateOf p.expiry_date < env.nowMs
      · simp [addMedicine, h1, h2]
      · simp [addMedicine, h1, h2, Result.isErr] at h
  · intro id tags h
    by_cases ht : tags = []
    · simp [addTags, ht]
    · cases hg : storeGet s id with
      | none => simp [addTags, ht, hg]
      | some m =>
        by_cases hc : m.creator = env.caller
        · simp [addTags, ht, hg, hc, Result.isErr] at h
        · simp [addTags, ht, hg, hc]
  · intro id p h
    cases hg : storeGet s id with
    | none => simp [updateMedicine, hg]
    | some m =>
      by_cases hc : m.creator = env.caller
      · simp [updateMedicine, hg, hc, Result.isErr] at h
      · simp [updateMedicine, hg, hc]
  · intro id h
    cases hg : storeGet s id with
    | none => simp [deleteMedicine, hg]
    | some m =>
      by_cases hc : m.creator = env.caller
      · simp [deleteMedicine, hg, hc, Result.isErr] at h
      · simp [deleteMedicine, hg, hc]
  · intro id a h
    cases hg : storeGet s id with
    | none => simp [assignMedicine, hg]
    | some m =>
      by_cases hc : m.creator = env.caller
      · simp [assignMedicine, hg, hc, Result.isErr] at h
      · simp [assignMedicine, hg, hc]
  · intro id st h
    cases hg : storeGet s id with
    | none => simp [changeMedicineStatus, hg]
    | some m =>
      by_cases hc : m.creator = env.caller
      · simp [changeMedicineStatus, hg, hc, Result.isErr] at h
      · simp [changeMedicineStatus, hg, hc]
  · intro st _
    rfl
  · intro id pr h
    cases hg : storeGet s id with
    | none => simp [setMedicinePriority, hg]
    | some m =>
      by_cases hc : m.creator = env.caller
      · simp [setMedicinePriority, hg, hc, Result.isErr] at h
      · simp [setMedicinePriority, hg, hc]
  · intro id _
    cases hg : storeGet s id with
    | none => simp [sendDueDateReminder, hg]
    | some m =>
      simp only [sendDueDateReminder, hg]
      split <;> rfl
  · intro c _
    rfl
  · intro _
    rfl
  · intro id c h
    by_cases hid : id = ""
    · simp [addMedicineComment, hid]
    · cases hg : storeGet s id with
      | none => simp [addMedicineComment, hid, hg]
      | some m => simp [addMedicineComment, hid, hg, Result.isErr] at h

/-- C2 witness: completing the unassigned record "m2" errs and the store
is unchanged. -/
theorem c2_witness :
    (completedMedicine envAlice storeTwo "m2").2 = storeTwo :=
  (c2_error_leaves_store_unchanged envAlice storeTwo).2.2.2.2.2.1 "m2"
    (by decide)

/-- C3: `addMedicine` with all four payload fields non-empty and an
expiry date not before the current time succeeds and returns a record
with the generated id, creator = caller, created_date = now, status
"In Progress", empty tags, comments and priority, unset updated_at, and
the payload's fields, stored under its id; an empty required field or a
past expiry date yields an error. -/
theorem c3_addMedicine_spec (env : Env) (s : Store) (p : MedicinePayload) :
    (p.title ≠ "" → p.description ≠ "" → p.assigned_to ≠ "" →
      p.expiry_date ≠ "" → ¬env.dateOf p.expiry_date < env.nowMs →
      ∃ newMed : Medicine,
        addMedicine env s p = (.Ok newMed, storeInsert env.newId newMed s) ∧
        newMed.id = env.newId ∧ newMed.creator = env.caller ∧
        newMed.created_date = env.time ∧ newMed.status = "In Progress" ∧
        newMed.tags = [] ∧ newMed.comments = [] ∧ newMed.priority = "" ∧
        newMed.updated_at = none ∧ newMed.title = p.title ∧
        newMed.description = p.description ∧
        newMed.assigned_to = p.assigned_to ∧
        newMed.expiry_date = p.expiry_date ∧
        storeGet (addMedicine env s p).2 env.newId = some newMed) ∧
    ((p.title = "" ∨ p.description = "" ∨ p.assigned_to = "" ∨
      p.expiry_date = "" ∨ env.dateOf p.expiry_date < env.nowMs) →
      (addMedicine env s p).1.isErr = true) := by
  constructor
  · intro h1 h2 h3 h4 h5
    have hcond : ¬(p.title = "" ∨ p.description = "" ∨ p.assigned_to = "" ∨
        p.expiry_date = "") := by
      push_neg
      exact ⟨h1, h2, h3, h4⟩
    refine ⟨{ creator := env.caller, id := env.newId, title := p.title,
              description := p.description, created_date := env.time,
              updated_at := none, expiry_date := p.expiry_date,
              assigned_to := p.assigned_to, tags := [],
              status := "In Progress", priority := "", comments := [] },
      ?_, rfl, rfl, rfl, rfl, rfl, rfl, rfl, rfl, rfl, rfl, rfl, rfl, ?_⟩
    · simp [addMedicine, hcond, h5]
    · have hst : (addMedicine env s p).2 =
          storeInsert env.newId
            { creator := env.caller, id := env.newId, title := p.title,
              description := p.description, created_date := env.time,
              updated_at := none, expiry_date := p.expiry_date,
              assigned_to := p.assigned_to, tags := [],
              status := "In Progress", priority := "", comments := [] } s := by
        simp [addMedicine, hcond, h5]
      rw [hst]
      exact storeGet_storeInsert_self _ _ _
  · intro h
    by_cases h1 : p.title = "" ∨ p.description = "" ∨ p.assigned_to = "" ∨
        p.expiry_date = ""
    · simp [addMedicine, h1, Result.isErr]
    · have h5 : env.dateOf p.expiry_date < env.nowMs := by
        rcases h with h | h | h | h | h
        · exact absurd (Or.inl h) h1
        · exact absurd (Or.inr (Or.inl h)) h1
        · exact absurd (Or.inr (Or.inr (Or.inl h))) h1
        · exact absurd (Or.inr (Or.inr (Or.inr h))) h1
        · exact h
      simp [addMedicine, h1, h5, Result.isErr]

/-- C3 witness: a concrete valid creation succeeds with the documented
defaults and is stored under the fresh id. -/
theorem c3_witness :
    ∃ newMed : Medicine,
      addMedicine envAlice storeOne payGood =
        (.Ok newMed, storeInsert envAlice.newId newMed storeOne) ∧
      newMed.id = envAlice.newId ∧ newMed.creator = envAlice.caller ∧
      newMed.created_date = envAlice.time ∧ newMed.status = "In Progress" ∧
      newMed.tags = [] ∧ newMed.comments = [] ∧ newMed.priority = "" ∧
      newMed.updated_at = none ∧ newMed.title = payGood.title ∧
      newMed.description = payGood.description ∧
      newMed.assigned_to = payGood.assigned_to ∧
      newMed.expiry_date = payGood.expiry_date ∧
      storeGet (addMedicine envAlice storeOne payGood).2 envAlice.newId =
        some newMed :=
  (c3_addMedicine_spec envAlice storeOne payGood).1 (by decide) (by decide)
    (by decide) (by decide) (by decide)

/-- A nonnegative rational with denominator 1 is the cast of the natural
number `q.num.toNat`. -/
theorem rat_den_one_toNat_cast {q : ℚ} (hden : q.den = 1) (h0 : 0 ≤ q) :
    (q.num.toNat : ℚ) = q := by
  have h1 : (q.num : ℚ) = q := by
    have h := Rat.num_div_den q
    rw [hden] at h
    simpa using h
  have h2 : 0 ≤ q.num := Rat.num_nonneg.mpr h0
  rw [← h1]
  exact_mod_cast Int.toNat_of_nonneg h2

/-- C5: with the store non-empty, integral nonnegative `offset`/`limit`,
`offset < total` and `offset + limit ≤ total`, `loadMoreMedicines`
returns exactly the slice `[offset, offset+limit)` of the full ordered
record list (exactly `limit` records) and leaves the store unchanged; a
negative or non-integer argument, an empty store, `offset ≥ total` or
`offset + limit > total` each yield an error. -/
theorem c5_loadMoreMedicines_pagination (env : Env) (s : Store)
    (offset limit : ℚ) :
    (0 ≤ offset → 0 ≤ limit → offset.den = 1 → limit.den = 1 →
      storeValues s ≠ [] →
      offset < ((storeValues s).length : ℚ) →
      offset + limit ≤ ((storeValues s).length : ℚ) →
      loadMoreMedicines env s offset limit =
        (.Ok (((storeValues s).drop offset.num.toNat).take limit.num.toNat),
         s) ∧
      (((storeValues s).drop offset.num.toNat).take limit.num.toNat).length =
        limit.num.toNat) ∧
    ((offset < 0 ∨ limit < 0 ∨ offset.den ≠ 1 ∨ limit.den ≠ 1 ∨
      storeValues s = [] ∨ ((storeValues s).length : ℚ) ≤ offset ∨
      ((storeValues s).length : ℚ) < offset + limit) →
      (loadMoreMedicines env s offset limit).1.isErr = true) := by
  constructor
  · intro h0o h0l hdo hdl hne hlt hle
    have hoq : (offset.num.toNat : ℚ) = offset := rat_den_one_toNat_cast hdo h0o
    have hlq : (limit.num.toNat : ℚ) = limit := rat_den_one_toNat_cast hdl h0l
    have hcond : ¬(offset < 0 ∨ limit < 0 ∨ offset.den ≠ 1 ∨ limit.den ≠ 1) := by
      push_neg
      exact ⟨not_lt.mp (fun hc => absurd h0o (not_le.mpr hc)), 
        not_lt.mp (fun hc => absurd h0l (not_le.mpr hc)), hdo, hdl⟩
    have hn0 : ¬(storeValues s).length = 0 := by
      simpa [List.length_eq_zero] using hne
    have hc3 : ¬((storeValues s).length : ℚ) ≤ offset := not_le.mpr hlt
    have hc4 : ¬((storeValues s).length : ℚ) < offset + limit := not_lt.mpr hle
    have hsum : ((offset.num.toNat + limit.num.toNat : ℕ) : ℚ) =
        offset + limit := by
      push_cast
      rw [hoq, hlq]
    have hnum : (offset + limit).num.toNat =
        offset.num.toNat + limit.num.toNat := by
      rw [← hsum, Rat.num_natCast, Int.toNat_natCast]
    have hslice : jsSlice (storeValues s) offset.num.toNat
        (offset + limit).num.toNat =
        ((storeValues s).drop offset.num.toNat).take limit.num.toNat := by
      rw [hnum]
      simp [jsSlice]
    have heq : loadMoreMedicines env s offset limit =
        (.Ok (((storeValues s).drop offset.num.toNat).take limit.num.toNat),
         s) := by
      rw [← hslice]
      simp [loadMoreMedicines, hcond, hn0, hc3, hc4]
    refine ⟨heq, ?_⟩
    have hol : offset.num.toNat + limit.num.toNat ≤ (storeValues s).length := by
      have hq : ((offset.num.toNat + limit.num.toNat : ℕ) : ℚ) ≤
          (((storeValues s).length : ℕ) : ℚ) := by
        rw [hsum]
        exact hle
      exact_mod_cast hq
    simp only [List.length_take, List.length_drop]
    omega
  · intro h
    by_cases h1 : offset < 0 ∨ limit < 0 ∨ offset.den ≠ 1 ∨ limit.den ≠ 1
    · simp [loadMoreMedicines, h1, Result.isErr]
    · by_cases h2 : (storeValues s).length = 0
      · simp [loadMoreMedicines, h1, h2, Result.isErr]
      · by_cases h3 : ((storeValues s).length : ℚ) ≤ offset
        · simp [loadMoreMedicines, h1, h2, h3, Result.isErr]
        · by_cases h4 : ((storeValues s).length : ℚ) < offset + limit
          · simp [loadMoreMedicines, h1, h2, h3, h4, Result.isErr]
          · exfalso
            push_neg at h1
            rcases h with h | h | h | h | h | h | h
            · exact absurd h (not_lt.mpr h1.1)
            · exact absurd h (not_lt.mpr h1.2.1)
            · exact h h1.2.2.1
            · exact h h1.2.2.2
            · exact h2 (by simp [h])
            · exact h3 h
            · exact h4 h

/-- C5 witness: on a two-record store, `loadMoreMedicines 1 1` returns
exactly the one record at index 1. -/
theorem c5_witness :
    loadMoreMedicines envAlice storeTwo 1 1 =
      (.Ok (((storeValues storeTwo).drop (1 : ℚ).num.toNat).take
        (1 : ℚ).num.toNat), storeTwo) ∧
    (((storeValues storeTwo).drop (1 : ℚ).num.toNat).take
      (1 : ℚ).num.toNat).length = (1 : ℚ).num.toNat :=
  (c5_loadMoreMedicines_pagination envAlice storeTwo 1 1).1 (by norm_num)
    (by norm_num) (by norm_num) (by norm_num) (by decide)
    (by norm_num [storeValues, storeTwo]) (by norm_num [storeValues, storeTwo])

/-- C6: `getOverdueMedicines` always succeeds without touching the store
and returns exactly the stored records whose `expiry_date` is earlier
than the current time and whose status is not "Completed"; a "Completed"
record is never included. -/
theorem c6_getOverdueMedicines_spec (env : Env) (s : Store) :
    ∃ l, getOverdueMedicines env s = (.Ok l, s) ∧
      (∀ m, m ∈ l ↔
        m ∈ storeValues s ∧ m.expiry_date < env.nowISO ∧
          m.status ≠ "Completed") ∧
      (∀ m, m ∈ l → m.status ≠ "Completed") := by
  refine ⟨_, rfl, ?_, ?_⟩
  · intro m
    rw [List.mem_filter]
    simp
  · intro m hm
    rw [List.mem_filter] at hm
    exact (of_decide_eq_true hm.2).2

/-- C6 witness: the theorem instantiated at a concrete store and clock. -/
theorem c6_witness :
    ∃ l, getOverdueMedicines envAlice storeTwo = (.Ok l, storeTwo) ∧
      (∀ m, m ∈ l ↔
        m ∈ storeValues storeTwo ∧ m.expiry_date < envAlice.nowISO ∧
          m.status ≠ "Completed") ∧
      (∀ m, m ∈ l → m.status ≠ "Completed") :=
  c6_getOverdueMedicines_spec envAlice storeTwo

/-- C7: no operation ever changes a stored record's `id` or `creator`:
each record-mutator that succeeds on a stored record re-stores the full
updated record under the record's own id with the same `id` and `creator`
fields; every mutator (creation included) preserves store
well-formedness, under which the record ids are pairwise distinct. -/
theorem c7_id_creator_immutable (env : Env) (s : Store) (id : String)
    (m m' : Medicine) :
    (storeGet s id = some m →
      ((completedMedicine env s id).1 = .Ok m' →
        m'.id = m.id ∧ m'.creator = m.creator ∧
        (completedMedicine env s id).2 = storeInsert m.id m' s) ∧
      (∀ tags, (addTags env s id tags).1 = .Ok m' →
        m'.id = m.id ∧ m'.creator = m.creator ∧
        (addTags env s id tags).2 = storeInsert m.id m' s) ∧
      (∀ p, (updateMedicine env s id p).1 = .Ok m' →
        m'.id = m.id ∧ m'.creator = m.creator ∧
        (updateMedicine env s id p).2 = storeInsert m.id m' s) ∧
      (∀ a, (assignMedicine env s id a).1 = .Ok m' →
        m'.id = m.id ∧ m'.creator = m.creator ∧
        (assignMedicine env s id a).2 = storeInsert m.id m' s) ∧
      (∀ st, (changeMedicineStatus env s id st).1 = .Ok m' →
        m'.id = m.id ∧ m'.creator = m.creator ∧
        (changeMedicineStatus env s id st).2 = storeInsert m.id m' s) ∧
      (∀ pr, (setMedicinePriority env s id pr).1 = .Ok m' →
        m'.id = m.id ∧ m'.creator = m.creator ∧
        (setMedicinePriority env s id pr).2 = storeInsert m.id m' s) ∧
      (∀ c, (addMedicineComment env s id c).1 = .Ok m' →
        m'.id = m.id ∧ m'.creator = m.creator ∧
        (addMedicineComment env s id c).2 = storeInsert m.id m' s)) ∧
    (WFStore s →
      (∀ p, WFStore (addMedicine env s p).2) ∧
      WFStore (completedMedicine env s id).2 ∧
      (∀ tags, WFStore (addTags env s id tags).2) ∧
      (∀ p, WFStore (updateMedicine env s id p).2) ∧
      (∀ a, WFStore (assignMedicine env s id a).2) ∧
      (∀ st, WFStore (changeMedicineStatus env s id st).2) ∧
      (∀ pr, WFStore (setMedicinePriority env s id pr).2) ∧
      (∀ c, WFStore (addMedicineComment env s id c).2) ∧
      ((storeValues s).map Medicine.id).Nodup) := by
  constructor
  · intro hget
    refine ⟨?_, ?_, ?_, ?_, ?_, ?_, ?_⟩
    · intro hOk
      by_cases ha : m.assigned_to = ""
      · simp [completedMedicine, hget, ha] at hOk
      · have hc : completedMedicine env s id =
            (.Ok { m with status := "Completed" },
             storeInsert m.id { m with status := "Completed" } s) := by
          simp [completedMedicine, hget, ha]
        rw [hc] at hOk
        simp only at hOk
        cases hOk
        exact ⟨rfl, rfl, by rw [hc]⟩
    · intro tags hOk
      by_cases ht : tags = []
      · simp [addTags, ht] at hOk
      · by_cases hcr : m.creator = env.caller
        · have hc : addTags env s id tags =
              (.Ok { m with tags := m.tags ++ tags,
                            updated_at := some env.time },
               storeInsert m.id
                 { m with tags := m.tags ++ tags,
                          updated_at := some env.time } s) := by
            simp [addTags, ht, hget, hcr]
          rw [hc] at hOk
          simp only at hOk
          cases hOk
          exact ⟨rfl, rfl, by rw [hc]⟩
        · simp [addTags, ht, hget, hcr] at hOk
    · intro p hOk
      by_cases hcr : m.creator = env.caller
      · have hc : updateMedicine env s id p =
            (.Ok { m with title := p.title, description := p.description,
                          assigned_to := p.assigned_to,
                          expiry_date := p.expiry_date,
                          updated_at := some env.time },
             storeInsert m.id
               { m with title := p.title, description := p.description,
                        assigned_to := p.assigned_to,
                        expiry_date := p.expiry_date,
                        updated_at := some env.time } s) := by
          simp [updateMedicine, hget, hcr]
        rw [hc] at hOk
        simp only at hOk
        cases hOk
        exact ⟨rfl, rfl, by rw [hc]⟩
      · simp [updateMedicine, hget, hcr] at hOk
    · intro a hOk
      by_cases hcr : m.creator = env.caller
      · have hc : assignMedicine env s id a =
            (.Ok { m with assigned_to := a },
             storeInsert m.id { m with assigned_to := a } s) := by
          simp [assignMedicine, hget, hcr]
        rw [hc] at hOk
        simp only at hOk
        cases hOk
        exact ⟨rfl, rfl, by rw [hc]⟩
      · simp [assignMedicine, hget, hcr] at hOk
    · intro st hOk
      by_cases hcr : m.creator = env.caller
      · have hc : changeMedicineStatus env s id st =
            (.Ok { m with status := st },
             storeInsert m.id { m with status := st } s) := by
          simp [changeMedicineStatus, hget, hcr]
        rw [hc] at hOk
        simp only at hOk
        cases hOk
        exact ⟨rfl, rfl, by rw [hc]⟩
      · simp [changeMedicineStatus, hget, hcr] at hOk
    · intro pr hOk
      by_cases hcr : m.creator = env.caller
      · have hc : setMedicinePriority env s id pr =
            (.Ok { m with priority := pr },
             storeInsert m.id { m with priority := pr } s) := by
          simp [setMedicinePriority, hget, hcr]
        rw [hc] at hOk
        simp only at hOk
        cases hOk
        exact ⟨rfl, rfl, by rw [hc]⟩
      · simp [setMedicinePriority, hget, hcr] at hOk
    · intro c hOk
      by_cases hid : id = ""
      · simp [addMedicineComment, hid] at hOk
      · have hc : addMedicineComment env s id c =
            (.Ok { m with comments := m.comments ++ [c] },
             storeInsert m.id { m with comments := m.comments ++ [c] } s) := by
          simp [addMedicineComment, hid, hget]
        rw [hc] at hOk
        simp only at hOk
        cases hOk
        exact ⟨rfl, rfl, by rw [hc]⟩
  · intro hs
    refine ⟨?_, ?_, ?_, ?_, ?_, ?_, ?_, ?_, WFStore_ids_nodup hs⟩
    · intro p
      by_cases h1 : p.title = "" ∨ p.description = "" ∨ p.assigned_to = "" ∨
          p.expiry_date = ""
      · simpa [addMedicine, h1] using hs
      · by_cases h2 : env.dateOf p.expiry_date < env.nowMs
        · simpa [addMedicine, h1, h2] using hs
        · simp [addMedicine, h1, h2]
          exact WFStore_storeInsert hs rfl
    · cases hg : storeGet s id with
      | none => simpa [completedMedicine, hg] using hs
      | some m2 =>
        by_cases ha : m2.assigned_to = ""
        · simpa [completedMedicine, hg, ha] using hs
        · simp [completedMedicine, hg, ha]
          exact WFStore_storeInsert hs rfl
    · intro tags
      by_cases ht : tags = []
      · simpa [addTags, ht] using hs
      · cases hg : storeGet s id with
        | none => simpa [addTags, ht, hg] using hs
        | some m2 =>
          by_cases hcr : m2.creator = env.caller
          · simp [addTags, ht, hg, hcr]
            exact WFStore_storeInsert hs rfl
          · simpa [addTags, ht, hg, hcr] using hs
    · intro p
      cases hg : storeGet s id with
      | none => simpa [updateMedicine, hg] using hs
      | some m2 =>
        by_cases hcr : m2.creator = env.caller
        · simp [updateMedicine, hg, hcr]
          exact WFStore_storeInsert hs rfl
        · simpa [updateMedicine, hg, hcr] using hs
    · intro a
      cases hg : storeGet s id with
      | none => simpa [assignMedicine, hg] using hs
      | some m2 =>
        by_cases hcr : m2.creator = env.caller
        · simp [assignMedicine, hg, hcr]
          exact WFStore_storeInsert hs rfl
        · simpa [assignMedicine, hg, hcr] using hs
    · intro st
      cases hg : storeGet s id with
      | none => simpa [changeMedicineStatus, hg] using hs
      | some m2 =>
        by_cases hcr : m2.creator = env.caller
        · simp [changeMedicineStatus, hg, hcr]
          exact WFStore_storeInsert hs rfl
        · simpa [changeMedicineStatus, hg, hcr] using hs
    · intro pr
      cases hg : storeGet s id with
      | none => simpa [setMedicinePriority, hg] using hs
      | some m2 =>
        by_cases hcr : m2.creator = env.caller
        · simp [setMedicinePriority, hg, hcr]
          exact WFStore_storeInsert hs rfl
        · simpa [setMedicinePriority, hg, hcr] using hs
    · intro c
      by_cases hid : id = ""
      · simpa [addMedicineComment, hid] using hs
      · cases hg : storeGet s id with
        | none => simpa [addMedicineComment, hid, hg] using hs
        | some m2 =>
          simp [addMedicineComment, hid, hg]
          exact WFStore_storeInsert hs rfl

/-- C7 witness: completing the concrete record keeps its id and creator
and re-stores it under its own id. -/
theorem c7_witness :
    ({ medAlice with status := "Completed" } : Medicine).id = medAlice.id ∧
    ({ medAlice with status := "Completed" } : Medicine).creator =
      medAlice.creator ∧
    (completedMedicine envAlice storeOne "m1").2 =
      storeInsert medAlice.id { medAlice with status := "Completed" }
        storeOne :=
  ((c7_id_creator_immutable envAlice storeOne "m1" medAlice
    { medAlice with status := "Completed" }).1 (by decide)).1 (by decide)

/-- C8: assign, change-status, set-priority and add-comment each touch
only their single target field (`assigned_to`, `status`, `priority`,
appended `comments`) and leave `updated_at` and every other field
unchanged, while add-tags and update additionally set `updated_at` to the
current time. -/
theorem c8_single_field_frame (env : Env) (s : Store) (id : String)
    (m : Medicine) (hget : storeGet s id = some m)
    (hcr : m.creator = env.caller) :
    (∀ a, assignMedicine env s id a =
      (.Ok { m with assigned_to := a },
       storeInsert m.id { m with assigned_to := a } s)) ∧
    (∀ st, changeMedicineStatus env s id st =
      (.Ok { m with status := st },
       storeInsert m.id { m with status := st } s)) ∧
    (∀ pr, setMedicinePriority env s id pr =
      (.Ok { m with priority := pr },
       storeInsert m.id { m with priority := pr } s)) ∧
    (id ≠ "" → ∀ c, addMedicineComment env s id c =
      (.Ok { m with comments := m.comments ++ [c] },
       storeInsert m.id { m with comments := m.comments ++ [c] } s)) ∧
    (∀ tags, tags ≠ [] → addTags env s id tags =
      (.Ok { m with tags := m.tags ++ tags, updated_at := some env.time },
       storeInsert m.id
         { m with tags := m.tags ++ tags, updated_at := some env.time } s)) ∧
    (∀ p, updateMedicine env s id p =
      (.Ok { m with title := p.title, description := p.description,
                    assigned_to := p.assigned_to,
                    expiry_date := p.expiry_date,
                    updated_at := some env.time },
       storeInsert m.id
         { m with title := p.title, description := p.description,
                  assigned_to := p.assigned_to, expiry_date := p.expiry_date,
                  updated_at := some env.time } s)) := by
  refine ⟨?_, ?_, ?_, ?_, ?_, ?_⟩
  · intro a
    simp [assignMedicine, hget, hcr]
  · intro st
    simp [changeMedicineStatus, hget, hcr]
  · intro pr
    simp [setMedicinePriority, hget, hcr]
  · intro hid c
    simp [addMedicineComment, hid, hget]
  · intro tags ht
    simp [addTags, ht, hget, hcr]
  · intro p
    simp [updateMedicine, hget, hcr]

/-- C8 witness: assigning the concrete record overwrites only
`assigned_to` and does not touch `updated_at`. -/
theorem c8_witness :
    assignMedicine envAlice storeOne "m1" "dave" =
      (.Ok { medAlice with assigned_to := "dave" },
       storeInsert medAlice.id { medAlice with assigned_to := "dave" }
         storeOne) :=
  (c8_single_field_frame envAlice storeOne "m1" medAlice (by decide)
    (by decide)).1 "dave"
